import Mathlib

/-!
Shallow embedding of the mozLz4 container codec from `dejsonlz4.c` (decoder)
and `ref_compress/jsonlz4.c` (reference encoder).

Machine-arithmetic conventions of the model, fixed to the mainstream LP64
platform the tools are built for: `int` is 32-bit two's complement (a left
shift that overflows is modelled with the conventional wrap-around result),
`size_t` is 64-bit, and signed-to-unsigned conversion is value mod 2^64.
Bytes are `Nat` values; where the C code forces a value into a byte
(`& 0xff`, `(unsigned char)` casts) the model keeps the corresponding
truncation explicitly.

The LZ4 block primitives (`LZ4_compress`, `LZ4_decompress_safe`) are external
collaborators: they are modelled as an abstract pair of functions (`Blk`),
and theorems that need their contract take it as a hypothesis.  File-system
effects (malloc, fopen, fwrite succeeding) are modelled by an explicit
environment record `Env`; the format/size logic itself never depends on it.
-/

namespace Dejsonlz4

/-- `const char mozlz4_magic[] = {109,111,122,76,122,52,48,0}` ("mozLz40\0"). -/
def mozlz4Magic : List Nat := [109, 111, 122, 76, 122, 52, 48, 0]

/-- `const size_t magic_size = sizeof mozlz4_magic` (= 8). -/
def magicSize : Nat := mozlz4Magic.length

/-- `const int decomp_size = 4`: the 4 size bytes after the magic. -/
def decompSize : Nat := 4

/-- `#define INITIAL_ALLOC_SIZE (32 * 1024)`. -/
def INITIAL_ALLOC_SIZE : Nat := 32 * 1024

/-- Modulus of the C `int` / `unsigned` width (32-bit). -/
def INT_MOD : Nat := 2 ^ 32

/-- Modulus of the C `size_t` width on the modelled LP64 platform (64-bit). -/
def SIZE_MOD : Nat := 2 ^ 64

/-- One term of the decoder's size loop, dejsonlz4.c line 136:
`(unsigned char)idata[i] << (8 * (i - magic_size))`, an `int` expression,
converted to `size_t` when added to `osize`.  The shift happens at `int`
width (`% INT_MOD`); if the 32-bit result has its sign bit set, conversion
to `size_t` sign-extends, i.e. adds `2^64 - 2^32`. -/
def sizeTerm (b sh : Nat) : Nat :=
  let v := (b <<< sh) % INT_MOD
  if v < 2 ^ 31 then v else v + (SIZE_MOD - INT_MOD)

/-- The decoder's size-reconstruction loop (dejsonlz4.c lines 135-136):
`for (i = magic_size; i < magic_size + decomp_size; i++)
   osize += (unsigned char)idata[i] << (8 * (i - magic_size));`
applied to the 4 size bytes, accumulating in a `size_t`. -/
def decodeSize (bs : List Nat) : Nat :=
  (List.range decompSize).foldl
    (fun acc i => (acc + sizeTerm (bs.getD i 0) (8 * i)) % SIZE_MOD) 0

/-- The encoder's size-field encoding (jsonlz4.c lines 139-140):
`for (i = magic_size; i < magic_size + decomp_size; i++)
   odata[i] = (isize >> (8 * (i - magic_size))) & 0xff;`. -/
def encodeSize (n : Nat) : List Nat :=
  (List.range decompSize).map (fun i => (n >>> (8 * i)) &&& 255)

/-- Modelled from the spec: the value of a 4-byte field read as an unsigned
32-bit little-endian integer ("Σ over i∈[0,4) of byte[i] << (8·i)").  This is
the spec-side meaning of the size field, kept separate from `decodeSize`
(which is translated from the decoder's loop) so the two can be compared. -/
def leVal (bs : List Nat) : Nat :=
  (List.range 4).foldl (fun acc i => acc + bs.getD i 0 * 2 ^ (8 * i)) 0

/-- Header validation and size extraction, dejsonlz4.c lines 131-136:
fails when `isize < magic_size + decomp_size` or the first `magic_size`
bytes differ from the magic; otherwise yields the declared size computed by
the decoder's loop together with the payload offset 12. -/
def parseHeader (idata : List Nat) : Except Unit (Nat × Nat) :=
  if idata.length < magicSize + decompSize ∨ idata.take magicSize ≠ mozlz4Magic then
    .error ()
  else
    .ok (decodeSize ((idata.drop magicSize).take decompSize), magicSize + decompSize)

/-- The external LZ4 block primitive pair (see lz4.h): `compress` returns the
compressed bytes (the C call reports length 0 on failure, modelled as an empty
result), `decompress src maxOut` returns the produced bytes or a negative
status. -/
structure Blk where
  compress : List Nat → List Nat
  decompress : List Nat → Nat → Except Int (List Nat)

/-- Success/failure of the environment-dependent steps of a decode run:
`malloc(osize)`, opening the output sink, and the full `fwrite`. -/
structure Env where
  mallocOk : Bool
  openOk : Bool
  writeOk : Bool
deriving DecidableEq

/-- Observable outcome of one decoder run (dejsonlz4.c `main`, lines
129-154): the process exit status, whether the output sink was ever
opened/created, the bytes fully written to it (if any), and whether the
size-mismatch warning was printed. -/
structure RunResult where
  exit : Nat
  outOpened : Bool
  written : Option (List Nat)
  warned : Bool
deriving DecidableEq

/-- The decoder `main`'s processing of an in-memory input, dejsonlz4.c lines
131-154: header check, size loop, `malloc(osize)`, `LZ4_decompress_safe`,
the non-fatal size-mismatch warning, opening the output, and writing exactly
`dsize` bytes.  On the format-error path nothing output-related happens. -/
def runDecode (env : Env) (blk : Blk) (idata : List Nat) : RunResult :=
  match parseHeader idata with
  | .error _ => ⟨1, false, none, false⟩
  | .ok (osize, off) =>
    if env.mallocOk = false then ⟨1, false, none, false⟩
    else
      match blk.decompress (idata.drop off) osize with
      | .error _ => ⟨1, false, none, false⟩
      | .ok out =>
        let warned := decide (out.length ≠ osize)
        if env.openOk = false then ⟨1, false, none, warned⟩
        else if env.writeOk = false then ⟨1, true, none, warned⟩
        else ⟨0, true, some out, warned⟩

/-- The encoder `main`'s container construction, jsonlz4.c lines 134-145:
magic, then the 4 size bytes of the input length, then the compressed
payload; fails exactly when `LZ4_compress` reports length 0. -/
def encodeContainer (blk : Blk) (idata : List Nat) : Option (List Nat) :=
  let comp := blk.compress idata
  if comp.length = 0 then none
  else some (mozlz4Magic ++ encodeSize idata.length ++ comp)

/-- Outcome of the decoder's argument processing. -/
inductive ArgOutcome
  | usage (code : Nat)
  | run (iname oname : Option String)
deriving DecidableEq

/-- The decoder's argument processing, dejsonlz4.c lines 121-126, on the
operand list (everything after `argv[0]`, so `argc = args.length + 1`):
usage exit when `argc > 3`, `argc < 2`, or `argv[1]` is `-h` (exit code 0
only when `argc == 2`); otherwise `iname`/`oname` are the operands unless
they are `-`, which selects the standard stream (`none`). -/
def parseArgs (args : List String) : ArgOutcome :=
  let argc := args.length + 1
  if argc > 3 ∨ argc < 2 ∨ (argc > 1 ∧ args.getD 0 "" = "-h") then
    .usage (if argc = 2 then 0 else 1)
  else
    .run (if 1 < argc ∧ args.getD 0 "" ≠ "-" then some (args.getD 0 "") else none)
         (if 2 < argc ∧ args.getD 1 "" ≠ "-" then some (args.getD 1 "") else none)

/-- The capacity step of `file_to_mem` (dejsonlz4.c line 88):
`buf_size = got ? got * 2 : INITIAL_ALLOC_SIZE`, in `size_t` arithmetic. -/
def nextCap (got : Nat) : Nat :=
  if got = 0 then INITIAL_ALLOC_SIZE else (got * 2) % SIZE_MOD

/-- The `file_to_mem` read loop (dejsonlz4.c lines 87-93), with `fuel`
bounding the number of iterations (the C loop terminates because the
capacity doubles; `file_to_mem` below supplies ample fuel).  `alloc` models
`realloc` success for a requested capacity, `N` is the number of bytes the
source holds before end-of-input, `got` the bytes read so far. `fread` on an
error-free stream returns `min(requested, remaining)` and end-of-file is
reached exactly when it returns less than requested, so the C success check
`buf && feof(f) && !ferror(f)` holds exactly on the normal loop exit:
the wrap-around/OOM `break` paths return failure (`none`). -/
def readLoop (alloc : Nat → Bool) (N : Nat) : Nat → Nat → Option Nat
  | 0, _ => none
  | fuel + 1, got =>
    if nextCap got ≤ got then none
    else if alloc (nextCap got) = false then none
    else
      let got2 := got + min (nextCap got - got) (N - got)
      if got2 = nextCap got then readLoop alloc N fuel got2 else some got2

/-- `file_to_mem` (dejsonlz4.c lines 77-106) on an error-free source of `N`
bytes: returns the byte count obtained on success.  `N + 2` iterations are
always enough, since each continuing iteration strictly increases `got`
towards `N` and at most one final iteration reads 0 bytes. -/
def file_to_mem (alloc : Nat → Bool) (N : Nat) : Option Nat :=
  readLoop alloc N (N + 2) 0

/-! ### Arithmetic and structural helper lemmas -/

/-- `x & 0xff` is `x mod 256`. -/
theorem land255 (x : Nat) : x &&& 255 = x % 256 := by
  simpa using Nat.and_pow_two_sub_one_eq_mod x 8

/-- On the LP64 model, the decoder loop inverts the encoder loop as long as
the declared size stays below `2^31`, i.e. the top bit of the last size byte
is clear and no sign extension happens. -/
theorem decodeSize_encodeSize_lt (n : Nat) (h : n < 2 ^ 31) :
    decodeSize (encodeSize n) = n := by
  simp only [decodeSize, encodeSize, decompSize, sizeTerm, INT_MOD, SIZE_MOD]
  norm_num [List.range_succ, Nat.shiftRight_eq_div_pow, Nat.shiftLeft_eq, land255, List.getD]
  split_ifs <;> omega

/-- The unsigned little-endian value of the encoder-written size field is the
input length mod `2^32`. -/
theorem leVal_encodeSize (n : Nat) : leVal (encodeSize n) = n % 2 ^ 32 := by
  simp only [leVal, encodeSize, decompSize]
  norm_num [List.range_succ, Nat.shiftRight_eq_div_pow, land255, List.getD]
  omega

/-- The encoder-written size field only depends on the length mod `2^32`. -/
theorem encodeSize_mod (n : Nat) : encodeSize n = encodeSize (n % 2 ^ 32) := by
  simp only [encodeSize, decompSize]
  norm_num [List.range_succ, Nat.shiftRight_eq_div_pow, land255]
  omega

/-- Any successful exit of the read loop reports exactly the source size. -/
theorem readLoop_exact (alloc : Nat → Bool) (N : Nat) :
    ∀ fuel got r, got ≤ N → readLoop alloc N fuel got = some r → r = N := by
  intro fuel
  induction fuel with
  | zero => intro got r _ hr; simp [readLoop] at hr
  | succ fuel ih =>
    intro got r hle hr
    simp only [readLoop] at hr
    split at hr
    · exact absurd hr (by simp)
    · split at hr
      · exact absurd hr (by simp)
      · split at hr
        · rename_i hbs halloc heq
          exact ih _ r (by omega) hr
        · rename_i hbs halloc hne
          have := Option.some.inj hr
          omega

/-- The size field written by the encoder always has 4 bytes. -/
theorem encodeSize_length (n : Nat) : (encodeSize n).length = decompSize := by
  simp [encodeSize]

/-- `parseHeader` on an encoder-shaped container: magic, a 4-byte size
field, then the payload. -/
theorem parseHeader_encode (es comp : List Nat) (hes : es.length = decompSize) :
    parseHeader (mozlz4Magic ++ es ++ comp)
      = .ok (decodeSize es, magicSize + decompSize) := by
  unfold parseHeader
  rw [if_neg]
  · have h1 : (mozlz4Magic ++ es ++ comp).drop magicSize = es ++ comp := by
      simp [magicSize]
    rw [h1, List.take_left' hes]
  · push_neg
    refine ⟨?_, by simp [magicSize]⟩
    simp only [List.length_append, magicSize, decompSize, mozlz4Magic, hes] at *
    simp

/-- Whenever `parseHeader` succeeds, the returned pair is the decoder-loop
size of bytes 8..11 and the payload offset 12. -/
theorem parseHeader_ok_size (idata : List Nat) (sz off : Nat)
    (h : parseHeader idata = .ok (sz, off)) :
    sz = decodeSize ((idata.drop magicSize).take decompSize) ∧
      off = magicSize + decompSize := by
  unfold parseHeader at h
  split at h
  · simp at h
  · simp at h
    exact ⟨h.1.symm, h.2.symm⟩

/-- Dropping the full 12-byte header of an encoder-shaped container leaves
the payload. -/
theorem drop_full_header (es comp : List Nat) (hes : es.length = decompSize) :
    (mozlz4Magic ++ es ++ comp).drop (magicSize + decompSize) = comp := by
  rw [List.drop_left']
  simp [magicSize, hes]

/-- Success-path characterization of a decode run: with a valid header, a
successful decompression, and a cooperative environment, the run exits 0,
opens the output, writes exactly the produced bytes, and warns exactly when
the produced length differs from the declared size. -/
theorem runDecode_success (env : Env) (blk : Blk) (idata out : List Nat) (sz : Nat)
    (hm : env.mallocOk = true) (ho : env.openOk = true) (hw : env.writeOk = true)
    (hph : parseHeader idata = .ok (sz, magicSize + decompSize))
    (hd : blk.decompress (idata.drop (magicSize + decompSize)) sz = .ok out) :
    runDecode env blk idata = ⟨0, true, some out, decide (out.length ≠ sz)⟩ := by
  unfold runDecode
  rw [hph]
  simp [hm, hd, ho, hw]

/-! ### Claim theorems -/

/-- Claim C1 (code_bug evaluation): the claim asserts
`decodeSize (encodeSize n) = n` for every `n < 2^32`, but at the failing
input `n = 2^31` the decoder's loop sign-extends the `int` term
`0x80 << 24` through the conversion to `size_t` and yields
`2^64 - 2^31` instead of `2^31`. -/
theorem c1_size_roundtrip_fails_sign_extension :
    encodeSize (2 ^ 31) = [0, 0, 0, 128] ∧
    decodeSize (encodeSize (2 ^ 31)) = 2 ^ 64 - 2 ^ 31 ∧
    decodeSize (encodeSize (2 ^ 31)) ≠ 2 ^ 31 := by
  decide

/-- An LZ4 pair used to refute claim C2 as universally stated: compression
is the identity and decompression returns its input exactly when the
announced output budget matches its length; this satisfies the round-trip
contract `decompress (compress x) (length x) = x`. -/
def cexBlk : Blk :=
  ⟨fun x => x, fun s m => if s.length = m then .ok s else .ok []⟩

/-- A 2-GiB input, the smallest length at which the decoder's size-field
readback diverges from the written length. -/
def bigInput : List Nat := List.replicate (2 ^ 31) 0

/-- The length of `bigInput`. -/
theorem bigInput_length : bigInput.length = 2 ^ 31 := List.length_replicate _ _

/-- Claim C2 counterexample: with `cexBlk` (which satisfies the stated
round-trip contract) and the concrete input `bigInput` of length `2^31`,
the decoder run on the encoder's container writes `[]`, not the original
bytes: the declared-size readback is `2^64 - 2^31`, which no longer matches
the payload length, so the contract never applies. -/
theorem c2_roundtrip_counterexample :
    (∀ x : List Nat, cexBlk.decompress (cexBlk.compress x) x.length = .ok x) ∧
    encodeContainer cexBlk bigInput
      = some (mozlz4Magic ++ encodeSize (2 ^ 31) ++ bigInput) ∧
    (runDecode ⟨true, true, true⟩ cexBlk
        (mozlz4Magic ++ encodeSize (2 ^ 31) ++ bigInput)).written = some [] ∧
    some ([] : List Nat) ≠ some bigInput := by
  have hsz : decodeSize (encodeSize (2 ^ 31)) = 2 ^ 64 - 2 ^ 31 := by decide
  have hph : parseHeader (mozlz4Magic ++ encodeSize (2 ^ 31) ++ bigInput)
      = .ok (2 ^ 64 - 2 ^ 31, magicSize + decompSize) := by
    rw [parseHeader_encode (encodeSize (2 ^ 31)) bigInput (encodeSize_length _), hsz]
  have hd : cexBlk.decompress bigInput (2 ^ 64 - 2 ^ 31) = .ok [] := by
    simp only [cexBlk]
    rw [bigInput_length, if_neg (by norm_num)]
  refine ⟨fun x => by simp [cexBlk], ?_, ?_, ?_⟩
  · unfold encodeContainer
    simp only [cexBlk]
    rw [if_neg (by rw [bigInput_length]; norm_num), bigInput_length]
  · rw [runDecode_success ⟨true, true, true⟩ cexBlk _ [] (2 ^ 64 - 2 ^ 31)
      rfl rfl rfl hph (by rw [drop_full_header _ _ (encodeSize_length _), hd])]
  · intro h
    have h3 := congrArg List.length (Option.some.inj h)
    rw [bigInput_length] at h3
    norm_num at h3

/-- Claim C2, amended: the round trip `decode (encode B) = B` holds for
every input shorter than `2^31` bytes (so that the size field reads back
exactly) whose compression is non-empty (so the encoder's
`LZ4_compress`-failure check does not fire), in an environment where
allocation, output open and the write succeed; the decoder then exits 0,
writes exactly `B`, and prints no warning. -/
theorem c2_roundtrip_below_2pow31 (blk : Blk) (env : Env) (B : List Nat)
    (hc : ∀ x, blk.decompress (blk.compress x) x.length = .ok x)
    (hlen : B.length < 2 ^ 31)
    (hcomp : (blk.compress B).length ≠ 0)
    (hm : env.mallocOk = true) (ho : env.openOk = true) (hw : env.writeOk = true) :
    encodeContainer blk B
      = some (mozlz4Magic ++ encodeSize B.length ++ blk.compress B) ∧
    runDecode env blk (mozlz4Magic ++ encodeSize B.length ++ blk.compress B)
      = ⟨0, true, some B, false⟩ := by
  refine ⟨by simp [encodeContainer, hcomp], ?_⟩
  have hph := parseHeader_encode (encodeSize B.length) (blk.compress B) (encodeSize_length _)
  rw [decodeSize_encodeSize_lt _ hlen] at hph
  rw [runDecode_success env blk _ B B.length hm ho hw hph
    (by rw [drop_full_header _ _ (encodeSize_length _)]; exact hc B)]
  simp

/-- Claim C2 witness. -/
theorem c2_roundtrip_below_2pow31_witness :
    encodeContainer ⟨fun x => x ++ [0], fun s m =>
        if s.length = m + 1 then .ok s.dropLast else .error (-1)⟩ [7, 8]
      = some (mozlz4Magic ++ encodeSize 2 ++ [7, 8, 0]) ∧
    runDecode ⟨true, true, true⟩ ⟨fun x => x ++ [0], fun s m =>
        if s.length = m + 1 then .ok s.dropLast else .error (-1)⟩
        (mozlz4Magic ++ encodeSize 2 ++ [7, 8, 0])
      = ⟨0, true, some [7, 8], false⟩ := by
  have h := c2_roundtrip_below_2pow31
    ⟨fun x => x ++ [0], fun s m => if s.length = m + 1 then .ok s.dropLast else .error (-1)⟩
    ⟨true, true, true⟩ [7, 8]
    (fun x => by simp) (by decide) (by decide) rfl rfl rfl
  simpa using h

/-- Claim C3: `parseHeader` fails (with the format error) exactly when the
buffer is shorter than 12 bytes or its first 8 bytes differ from the fixed
signature; on any other buffer it succeeds, returning the declared size and
payload offset 12. -/
theorem c3_parseHeader_characterization (buf : List Nat) :
    (parseHeader buf = .error () ↔
      buf.length < magicSize + decompSize ∨ buf.take magicSize ≠ mozlz4Magic) ∧
    (magicSize + decompSize ≤ buf.length → buf.take magicSize = mozlz4Magic →
      parseHeader buf
        = .ok (decodeSize ((buf.drop magicSize).take decompSize),
               magicSize + decompSize)) := by
  unfold parseHeader
  split
  · rename_i h
    refine ⟨iff_of_true rfl h, ?_⟩
    intro hlen hm
    rcases h with h | h
    · omega
    · exact absurd hm h
  · rename_i h
    push_neg at h
    refine ⟨iff_of_false (by simp) ?_, fun _ _ => rfl⟩
    push_neg
    exact ⟨by omega, h.2⟩

/-- Claim C3 witness. -/
theorem c3_parseHeader_witness :
    parseHeader (mozlz4Magic ++ [5, 0, 0, 0]) = .ok (5, 12) :=
  ((c3_parseHeader_characterization (mozlz4Magic ++ [5, 0, 0, 0])).2
    (by decide) (by decide)).trans (by rfl)

/-- Claim C4 counterexample: the claim says an omitted IN operand (zero
operands) reads standard input, but the code's argument check
(`argc < 2`) exits with the usage error, code 1. -/
theorem c4_zero_operands_counterexample :
    parseArgs [] = ArgOutcome.usage 1 ∧
    ArgOutcome.usage 1 ≠ ArgOutcome.run none none := by
  decide

/-- Claim C4, amended: IN is mandatory — invoking with zero operands is a
usage error with exit code 1; an IN operand of `-` selects standard input;
the OUT operand omitted or `-` selects standard output; any other operands
are used as file names. -/
theorem c4_cli_operands (i o : String)
    (hi : i ≠ "-") (hh : i ≠ "-h") (ho : o ≠ "-") :
    parseArgs [] = .usage 1 ∧
    parseArgs ["-"] = .run none none ∧
    parseArgs [i] = .run (some i) none ∧
    parseArgs [i, "-"] = .run (some i) none ∧
    parseArgs [i, o] = .run (some i) (some o) ∧
    parseArgs ["-", o] = .run none (some o) := by
  refine ⟨by decide, by decide, ?_, ?_, ?_, ?_⟩ <;>
    simp [parseArgs, hi, hh, ho]

/-- Claim C4 witness. -/
theorem c4_cli_operands_witness :
    parseArgs [] = .usage 1 ∧
    parseArgs ["-"] = .run none none ∧
    parseArgs ["in.lz4"] = .run (some "in.lz4") none ∧
    parseArgs ["in.lz4", "-"] = .run (some "in.lz4") none ∧
    parseArgs ["in.lz4", "out.json"] = .run (some "in.lz4") (some "out.json") ∧
    parseArgs ["-", "out.json"] = .run none (some "out.json") :=
  c4_cli_operands "in.lz4" "out.json" (by decide) (by decide) (by decide)

/-- Claim C5: `file_to_mem` on an error-free source of `N` bytes either
fails or returns exactly `N`: no growth step, overflow or allocation
failure can make it succeed with a truncated count. -/
theorem c5_file_to_mem_exact (alloc : Nat → Bool) (N r : Nat)
    (h : file_to_mem alloc N = some r) : r = N :=
  readLoop_exact alloc N (N + 2) 0 r (Nat.zero_le N) h

/-- Claim C5 witness (a 32 KiB + 1 source, which takes one doubling). -/
theorem c5_file_to_mem_witness :
    file_to_mem (fun _ => true) 32769 = some 32769 ∧ (32769 : Nat) = 32769 :=
  ⟨by decide, c5_file_to_mem_exact (fun _ => true) 32769 32769 (by decide)⟩

/-- Claim C6 (code_bug evaluation): on a well-formed container whose size
field is `00 00 00 80`, the claim (and the spec's format table) give the
unsigned 32-bit little-endian value `2^31`, but the decoder computes
`2^64 - 2^31` because the `int`-typed term `0x80 << 24` is sign-extended
when added to the `size_t` accumulator. -/
theorem c6_declared_size_sign_extended :
    parseHeader (mozlz4Magic ++ [0, 0, 0, 128])
      = .ok (2 ^ 64 - 2 ^ 31, magicSize + decompSize) ∧
    leVal [0, 0, 0, 128] = 2 ^ 31 ∧
    (2 ^ 64 - 2 ^ 31 : Nat) ≠ 2 ^ 31 := by
  refine ⟨?_, by decide, by decide⟩
  have h := parseHeader_encode [0, 0, 0, 128] [] (by decide)
  simpa using h.trans (by rfl)

/-- Claim C7: when the header parses, decompression succeeds, and the
produced length differs from the declared size, the run still succeeds
(in a cooperative environment): exit status 0, the size-mismatch warning
is printed, and exactly the produced bytes are written. -/
theorem c7_size_mismatch_warns_and_continues (env : Env) (blk : Blk)
    (idata out : List Nat) (sz : Nat)
    (hm : env.mallocOk = true) (ho : env.openOk = true) (hw : env.writeOk = true)
    (hph : parseHeader idata = .ok (sz, magicSize + decompSize))
    (hd : blk.decompress (idata.drop (magicSize + decompSize)) sz = .ok out)
    (hne : out.length ≠ sz) :
    runDecode env blk idata = ⟨0, true, some out, true⟩ := by
  rw [runDecode_success env blk idata out sz hm ho hw hph hd]
  simp [hne]

/-- Claim C7 witness: declared size 100, produced length 90 — exit 0,
warning printed, the 90 produced bytes written. -/
theorem c7_size_mismatch_witness :
    runDecode ⟨true, true, true⟩ ⟨fun x => x, fun _ _ => .ok (List.replicate 90 7)⟩
        (mozlz4Magic ++ [100, 0, 0, 0] ++ [1, 2, 3])
      = ⟨0, true, some (List.replicate 90 7), true⟩ :=
  c7_size_mismatch_warns_and_continues ⟨true, true, true⟩
    ⟨fun x => x, fun _ _ => .ok (List.replicate 90 7)⟩
    (mozlz4Magic ++ [100, 0, 0, 0] ++ [1, 2, 3]) (List.replicate 90 7) 100
    rfl rfl rfl (by rfl) rfl (by decide)

/-- Claim C8: on a format error (input shorter than 12 bytes or signature
mismatch) the run exits with status 1 and the output destination is never
opened, created or written — in any environment and with any compressor. -/
theorem c8_format_error_no_output (env : Env) (blk : Blk) (idata : List Nat)
    (h : idata.length < magicSize + decompSize ∨ idata.take magicSize ≠ mozlz4Magic) :
    runDecode env blk idata = ⟨1, false, none, false⟩ := by
  unfold runDecode parseHeader
  rw [if_pos h]

/-- Claim C8 witness: a 4-byte input file. -/
theorem c8_format_error_witness :
    runDecode ⟨true, true, true⟩ ⟨fun x => x, fun _ _ => .ok []⟩ [1, 2, 3, 4]
      = ⟨1, false, none, false⟩ :=
  c8_format_error_no_output ⟨true, true, true⟩ ⟨fun x => x, fun _ _ => .ok []⟩
    [1, 2, 3, 4] (by decide)

/-- Claim C9: the encoder writes the input length mod `2^32` into the size
field, with no length check anywhere on the path (the container is built
for every input whose compression is non-empty), so for lengths of `2^32`
or more the field's unsigned little-endian value silently differs from the
true length. -/
theorem c9_encoder_size_field_wraps (blk : Blk) (B : List Nat)
    (hcomp : (blk.compress B).length ≠ 0) :
    encodeContainer blk B
      = some (mozlz4Magic ++ encodeSize B.length ++ blk.compress B) ∧
    encodeSize B.length = encodeSize (B.length % 2 ^ 32) ∧
    leVal (encodeSize B.length) = B.length % 2 ^ 32 ∧
    (2 ^ 32 ≤ B.length → leVal (encodeSize B.length) ≠ B.length) := by
  refine ⟨by simp [encodeContainer, hcomp], encodeSize_mod _, leVal_encodeSize _, ?_⟩
  intro h
  rw [leVal_encodeSize]
  have := Nat.mod_lt B.length (show 0 < 2 ^ 32 by norm_num)
  omega

/-- Claim C9 witness. -/
theorem c9_encoder_size_field_witness :
    encodeContainer ⟨fun x => x ++ [0], fun _ _ => .ok []⟩ [1, 2, 3]
      = some (mozlz4Magic ++ encodeSize 3 ++ [1, 2, 3, 0]) ∧
    encodeSize 3 = encodeSize (3 % 2 ^ 32) ∧
    leVal (encodeSize 3) = 3 % 2 ^ 32 ∧
    (2 ^ 32 ≤ 3 → leVal (encodeSize 3) ≠ 3) := by
  have h := c9_encoder_size_field_wraps ⟨fun x => x ++ [0], fun _ _ => .ok []⟩
    [1, 2, 3] (by decide)
  simpa using h

/-- Claim C10: if the decompress primitive never returns more bytes than
its output budget, then any bytes a decode run writes number at most the
declared size, and whenever the size-mismatch warning fires the output is
strictly smaller than declared — the "larger than expected" case cannot
occur, matching the warning's wording. -/
theorem c10_produced_never_exceeds_declared (env : Env) (blk : Blk)
    (idata out : List Nat)
    (hb : ∀ s m o, blk.decompress s m = .ok o → o.length ≤ m)
    (hr : (runDecode env blk idata).written = some out) :
    out.length ≤ decodeSize ((idata.drop magicSize).take decompSize) ∧
    ((runDecode env blk idata).warned = true →
      out.length < decodeSize ((idata.drop magicSize).take decompSize)) := by
  rcases hph : parseHeader idata with u | ⟨sz, off⟩
  · unfold runDecode at hr
    rw [hph] at hr
    simp at hr
  · obtain ⟨hsz, hoff⟩ := parseHeader_ok_size _ _ _ hph
    rw [← hsz]
    unfold runDecode at hr ⊢
    rw [hph] at hr ⊢
    simp only [] at hr ⊢
    by_cases hm : env.mallocOk = false
    · simp [hm] at hr
    · rw [if_neg hm] at hr ⊢
      rcases hd : blk.decompress (idata.drop off) sz with e | o
      · rw [hd] at hr
        simp at hr
      · rw [hd] at hr
        simp only [] at hr ⊢
        have hle := hb _ _ _ hd
        by_cases hopen : env.openOk = false
        · rw [if_pos hopen] at hr
          simp at hr
        · rw [if_neg hopen] at hr ⊢
          by_cases hwrite : env.writeOk = false
          · rw [if_pos hwrite] at hr
            simp at hr
          · rw [if_neg hwrite] at hr ⊢
            simp at hr ⊢
            subst hr
            exact ⟨hle, fun hww => lt_of_le_of_ne hle hww⟩

/-- Claim C10 witness: declared size 3, payload of 2 bytes, a decompressor
that respects its budget — 2 bytes written, 2 ≤ 3, and the warning implies
the strict inequality. -/
theorem c10_produced_witness :
    ([9, 9] : List Nat).length
      ≤ decodeSize (((mozlz4Magic ++ [3, 0, 0, 0] ++ [9, 9]).drop magicSize).take decompSize) ∧
    ((runDecode ⟨true, true, true⟩ ⟨fun x => x, fun s m => .ok (s.take m)⟩
        (mozlz4Magic ++ [3, 0, 0, 0] ++ [9, 9])).warned = true →
      ([9, 9] : List Nat).length
        < decodeSize (((mozlz4Magic ++ [3, 0, 0, 0] ++ [9, 9]).drop magicSize).take decompSize)) :=
  c10_produced_never_exceeds_declared ⟨true, true, true⟩
    ⟨fun x => x, fun s m => .ok (s.take m)⟩
    (mozlz4Magic ++ [3, 0, 0, 0] ++ [9, 9]) [9, 9]
    (fun s m o h => by
      have h2 : Except.ok (s.take m) = Except.ok o := h
      cases h2
      exact List.length_take_le m s)
    (by decide)

end Dejsonlz4
